import Mathlib

/-!
# Verification of the `RedPacket` contract

Shallow embedding of `contracts/RedPacket.sol` (Solidity ^0.8.0).

Modelling decisions, each justified against the source:

* Addresses are modelled as `Nat`.
* The mapping `mapping(address => uint256) public isGrabbed`, which the code
  only ever compares with `0` and sets to `1`, is modelled as a
  `Finset Nat` (`a ∈ grabbed ↔ isGrabbed[a] = 1`).
* All `uint256` arithmetic in the contract stays inside `[0, 2^256)`:
  `totalAmount` only decreases from `msg.value`; `avg * 2 ≤ totalAmount`
  because `avg = totalAmount / count` with `count ≥ 2` in the branch where
  it is computed; the subtractions `max - min`, `totalAmount - amount` and
  `count - 1` never underflow (proved below where needed).  Hence plain
  `Nat` arithmetic coincides with the checked `uint256` arithmetic, with
  one exception which we model explicitly: in Solidity ≥ 0.8, `x % 0`
  aborts the transaction with `Panic(0x12)` (while Lean's `Nat.mod x 0 = x`),
  so the random branch returns a `Panic` error when `range = 0`.
* The keccak-based entropy word
  `uint256(keccak256(abi.encode(block.timestamp, block.prevrandao, msg.sender, totalAmount, count)))`
  is passed in as an arbitrary `rand : Nat` parameter; every theorem below
  either holds for all values of `rand` or exhibits explicit values.
* `revert`/`require` failure is an `Except.error`: the transaction commits
  no state, which is exactly the EVM rollback semantics.
-/

/-- Claim-time failure reasons of `grabRedPacket`, in the order of the three
`require` statements, plus the arithmetic `Panic(0x12)` that Solidity ≥ 0.8
raises on modulus by zero. -/
inductive GrabError where
  | PoolExhausted   -- require(count > 0, "All red packets grabbed")
  | PoolEmpty       -- require(totalAmount > 0, "No money left")
  | AlreadyClaimed  -- require(isGrabbed[msg.sender] == 0, "Already grabbed")
  | Panic           -- Solidity Panic(0x12): modulus by zero in `rand % range`
  deriving DecidableEq, Repr

/-- Creation-time failure reason of the constructor. -/
inductive CreateError where
  | InvalidConfig   -- require(_count > 0, "Count must be > 0")
  deriving DecidableEq, Repr

/-- The contract storage of `RedPacket`:
`uint256 totalAmount; uint256 count; bool isEqual; mapping(address => uint256) isGrabbed`.
(`address payable yideng` is informational only and not used by any claim.) -/
structure RPState where
  totalAmount : Nat
  count : Nat
  isEqual : Bool
  grabbed : Finset Nat
  deriving DecidableEq

/-- `constructor(uint256 _count, bool _isEqual) payable`:
requires `_count > 0`, then stores `count := _count`, `isEqual := _isEqual`,
`totalAmount := msg.value`.  Note the code never checks `msg.value`. -/
def RedPacket.construct (_count : Nat) (_isEqual : Bool) (msgValue : Nat) :
    Except CreateError RPState :=
  if _count = 0 then .error .InvalidConfig
  else .ok { totalAmount := msgValue, count := _count, isEqual := _isEqual,
             grabbed := ∅ }

/-- The storage state at the moment `payable(msg.sender).transfer(amount)` is
executed: the write `isGrabbed[msg.sender] = 1` has been performed, but
`totalAmount -= amount` and `count--` have not.  A reentrant call made by the
transfer's recipient runs against exactly this state. -/
def RedPacket.preTransferState (sender : Nat) (s : RPState) : RPState :=
  { s with grabbed := insert sender s.grabbed }

/-- The `amount` computation of `grabRedPacket` (lines 44–66 of the source),
evaluated on the storage visible at that point.  In the random branch the
source computes `rand % range` unconditionally; when `range = 0` this is a
modulus by zero, which Solidity ≥ 0.8 turns into `Panic(0x12)`, reverting the
whole call — hence the explicit `Panic` error. -/
def RedPacket.computeAmount (rand : Nat) (s : RPState) : Except GrabError Nat :=
  if s.count = 1 then
    .ok s.totalAmount
  else if s.isEqual then
    .ok (s.totalAmount / s.count)
  else
    let avg := s.totalAmount / s.count
    let max := avg * 2
    let min := avg / 100
    let range := max - min
    if range = 0 then .error .Panic
    else
      let amount := rand % range + min
      .ok (if amount > s.totalAmount then s.totalAmount else amount)

/-- `grabRedPacket()` as a transaction: three `require` guards, the
`isGrabbed[msg.sender] = 1` write, the amount computation, the transfer
(which happens against `preTransferState`), then `totalAmount -= amount`
and `count--`.  Returns the paid amount (also carried by the `Grabbed`
event) and the committed post-state; any failure reverts everything. -/
def RedPacket.grabRedPacket (sender rand : Nat) (s : RPState) :
    Except GrabError (Nat × RPState) :=
  if s.count = 0 then .error .PoolExhausted
  else if s.totalAmount = 0 then .error .PoolEmpty
  else if sender ∈ s.grabbed then .error .AlreadyClaimed
  else
    let s₁ := RedPacket.preTransferState sender s
    match RedPacket.computeAmount rand s₁ with
    | .error e => .error e
    | .ok amount =>
        -- `payable(msg.sender).transfer(amount)` is initiated here, with
        -- storage `s₁`; then the two decrements commit:
        .ok (amount, { s₁ with totalAmount := s₁.totalAmount - amount,
                               count := s₁.count - 1 })

/-- The post-state of a claim attempt: the committed state on success, the
unchanged (rolled-back) state on revert. -/
def RedPacket.attempt (sender rand : Nat) (s : RPState) : RPState :=
  match RedPacket.grabRedPacket sender rand s with
  | .ok (_, s') => s'
  | .error _ => s

/-- States reachable from a successful deployment with share count `N₀`,
mode `eq` and funding `T₀`, by any sequence of successful claims
(failed attempts revert and do not change state). -/
inductive RPReachable (N₀ : Nat) (eq : Bool) (T₀ : Nat) : RPState → Prop where
  | create (s : RPState) :
      RedPacket.construct N₀ eq T₀ = .ok s → RPReachable N₀ eq T₀ s
  | step (s : RPState) (sender rand a : Nat) (s' : RPState) :
      RPReachable N₀ eq T₀ s →
      RedPacket.grabRedPacket sender rand s = .ok (a, s') →
      RPReachable N₀ eq T₀ s'

/-! ## Concrete pool states used by the examples below -/

/-- A 2-share Random pool funded with 1 unit (creatable: `construct 2 false 1`);
here `avg = 1 / 2 = 0`, so `range = 0`. -/
def tinyRandomPool : RPState :=
  { totalAmount := 1, count := 2, isEqual := false, grabbed := ∅ }

/-- A 1-share Random pool funded with 100 units. -/
def oneSharePool : RPState :=
  { totalAmount := 100, count := 1, isEqual := false, grabbed := ∅ }

/-- `oneSharePool` after identity 5 claimed its single share. -/
def oneSharePoolDrained : RPState :=
  { totalAmount := 0, count := 0, isEqual := false, grabbed := {5} }

/-- A 1-share Equal pool created with zero funding. -/
def zeroFundPool : RPState :=
  { totalAmount := 0, count := 1, isEqual := true, grabbed := ∅ }

/-- A live 3-share Equal pool in which identity 5 has already claimed. -/
def claimedLivePool : RPState :=
  { totalAmount := 7, count := 3, isEqual := true, grabbed := {5} }

/-- A 4-share Random pool funded with 3 units (creatable); `avg = 3 / 4 = 0`,
so every claim attempt panics. -/
def smallRandomPool : RPState :=
  { totalAmount := 3, count := 4, isEqual := false, grabbed := ∅ }

/-- Run `k` claim transactions by the distinct identities `i, i+1, …, i+k-1`
(in that order), the entropy word for identity `j` being `rand j`; returns the
paid amounts in order together with the final state, or `none` if any of the
claims fails. -/
def RedPacket.runClaims (rand : Nat → Nat) : Nat → Nat → RPState →
    Option (List Nat × RPState)
  | _, 0, s => some ([], s)
  | i, k+1, s =>
    match RedPacket.grabRedPacket i (rand i) s with
    | .error _ => none
    | .ok (a, s') =>
      match RedPacket.runClaims rand (i+1) k s' with
      | none => none
      | some (as, sf) => some (a :: as, sf)

/-! ## Basic lemmas about the embedding -/

@[simp] theorem RedPacket.preTransferState_totalAmount (sender : Nat) (s : RPState) :
    (RedPacket.preTransferState sender s).totalAmount = s.totalAmount := rfl

@[simp] theorem RedPacket.preTransferState_count (sender : Nat) (s : RPState) :
    (RedPacket.preTransferState sender s).count = s.count := rfl

@[simp] theorem RedPacket.preTransferState_isEqual (sender : Nat) (s : RPState) :
    (RedPacket.preTransferState sender s).isEqual = s.isEqual := rfl

@[simp] theorem RedPacket.preTransferState_grabbed (sender : Nat) (s : RPState) :
    (RedPacket.preTransferState sender s).grabbed = insert sender s.grabbed := rfl

/-- Inversion of a successful claim: all three guards passed, the amount came
from `computeAmount` on the pre-transfer state, and the committed state is the
pre-transfer state with the two decrements applied. -/
theorem RedPacket.grab_ok_cases {sender rand a : Nat} {s s' : RPState}
    (h : RedPacket.grabRedPacket sender rand s = .ok (a, s')) :
    s.count ≠ 0 ∧ s.totalAmount ≠ 0 ∧ sender ∉ s.grabbed ∧
    RedPacket.computeAmount rand (RedPacket.preTransferState sender s) = .ok a ∧
    s' = { totalAmount := s.totalAmount - a, count := s.count - 1,
           isEqual := s.isEqual, grabbed := insert sender s.grabbed } := by
  unfold RedPacket.grabRedPacket at h
  split at h
  · exact absurd h (by simp)
  split at h
  · exact absurd h (by simp)
  split at h
  · exact absurd h (by simp)
  dsimp only [] at h
  split at h
  · exact absurd h (by simp)
  rename_i amt hca
  injection h with h1
  have hfst : amt = a := congrArg Prod.fst h1
  refine ⟨by assumption, by assumption, by assumption, by rw [hca, hfst], ?_⟩
  have h2 := congrArg Prod.snd h1
  simp only at h2
  rw [← h2, hfst]
  simp [RedPacket.preTransferState]

/-- Introduction of a successful claim from its components. -/
theorem RedPacket.grab_ok_intro {sender rand a : Nat} {s : RPState}
    (hc : s.count ≠ 0) (ht : s.totalAmount ≠ 0) (hg : sender ∉ s.grabbed)
    (hca : RedPacket.computeAmount rand (RedPacket.preTransferState sender s) = .ok a) :
    RedPacket.grabRedPacket sender rand s =
      .ok (a, { totalAmount := s.totalAmount - a, count := s.count - 1,
                isEqual := s.isEqual, grabbed := insert sender s.grabbed }) := by
  unfold RedPacket.grabRedPacket
  rw [if_neg hc, if_neg ht, if_neg hg]
  dsimp only []
  rw [hca]
  simp [RedPacket.preTransferState]

/-- Case analysis on a successful `computeAmount`. -/
theorem RedPacket.computeAmount_ok_cases {rand a : Nat} {s : RPState}
    (h : RedPacket.computeAmount rand s = .ok a) :
    (s.count = 1 ∧ a = s.totalAmount) ∨
    (s.count ≠ 1 ∧ s.isEqual = true ∧ a = s.totalAmount / s.count) ∨
    (s.count ≠ 1 ∧ s.isEqual = false ∧
      (s.totalAmount / s.count) * 2 - (s.totalAmount / s.count) / 100 ≠ 0 ∧
      a = (if rand % ((s.totalAmount / s.count) * 2 - (s.totalAmount / s.count) / 100)
              + (s.totalAmount / s.count) / 100 > s.totalAmount
           then s.totalAmount
           else rand % ((s.totalAmount / s.count) * 2 - (s.totalAmount / s.count) / 100)
              + (s.totalAmount / s.count) / 100)) := by
  unfold RedPacket.computeAmount at h
  dsimp only [] at h
  split at h
  · exact Or.inl ⟨by assumption, by injection h with h1; exact h1.symm⟩
  split at h
  · refine Or.inr (Or.inl ⟨by assumption, by assumption, ?_⟩)
    injection h with h1; exact h1.symm
  split at h
  · exact absurd h (by simp)
  · refine Or.inr (Or.inr ⟨by assumption, ?_, by assumption, ?_⟩)
    · rename_i heq _; exact Bool.of_not_eq_true heq
    · injection h with h1; exact h1.symm

/-- In the random branch, when the range is nonzero and at least two shares
remain, the unclamped draw `rand % range + min` is strictly below the pool:
`range ≠ 0` forces `avg = T / N ≥ 1`, the draw is `< max = 2·avg`, and
`2·avg ≤ T` because `N ≥ 2`. -/
theorem RedPacket.rand_draw_lt {T N r : Nat} (hN : 2 ≤ N)
    (hrange : (T / N) * 2 - (T / N) / 100 ≠ 0) :
    r % ((T / N) * 2 - (T / N) / 100) + (T / N) / 100 < T := by
  set q := T / N with hq
  have hq1 : 1 ≤ q := by
    rcases Nat.eq_zero_or_pos q with h0 | h1
    · exact absurd (by rw [h0]) hrange
    · exact h1
  have h2q : q * 2 ≤ T := by
    have := Nat.div_mul_le_self T N
    calc q * 2 ≤ q * N := Nat.mul_le_mul_left q hN
    _ = T / N * N := by rw [hq]
    _ ≤ T := Nat.div_mul_le_self T N
  have hmod : r % (q * 2 - q / 100) < q * 2 - q / 100 :=
    Nat.mod_lt _ (Nat.pos_of_ne_zero hrange)
  have hle : q / 100 ≤ q * 2 := le_trans (Nat.div_le_self q 100) (by omega)
  omega

/-- The post-state and amount of any successful claim, in terms of the
pre-state: totals and shares decrease, the claimant is fresh and becomes
marked, the mode is unchanged, and the amount never exceeds the pool. -/
theorem RedPacket.grab_ok_state {sender rand a : Nat} {s s' : RPState}
    (h : RedPacket.grabRedPacket sender rand s = .ok (a, s')) :
    s'.totalAmount = s.totalAmount - a ∧ s'.count = s.count - 1 ∧
    s'.isEqual = s.isEqual ∧ s'.grabbed = insert sender s.grabbed ∧
    sender ∉ s.grabbed ∧ a ≤ s.totalAmount ∧ 1 ≤ s.count ∧ 1 ≤ s.totalAmount := by
  obtain ⟨hc, ht, hg, hca, hs'⟩ := RedPacket.grab_ok_cases h
  have ha : a ≤ s.totalAmount := by
    rcases RedPacket.computeAmount_ok_cases hca with ⟨_, h1⟩ | ⟨_, _, h1⟩ | ⟨_, _, hr, h1⟩ <;>
      simp only [RedPacket.preTransferState_totalAmount,
        RedPacket.preTransferState_count] at h1
    · exact le_of_eq h1
    · exact h1 ▸ Nat.div_le_self _ _
    · rw [h1]; split
      · exact le_rfl
      · omega
  exact ⟨by rw [hs'], by rw [hs'], by rw [hs'], by rw [hs'], hg, ha,
    Nat.one_le_iff_ne_zero.mpr hc, Nat.one_le_iff_ne_zero.mpr ht⟩

/-- A successful claim taken with at least two shares remaining pays strictly
less than the pool: the final-share branch is excluded, equal split pays
`T / N < T`, and the random draw is strictly below `2·avg ≤ T`
(so in particular the clamp `amount > totalAmount` never fires). -/
theorem RedPacket.grab_ok_amount_lt {sender rand a : Nat} {s s' : RPState}
    (h : RedPacket.grabRedPacket sender rand s = .ok (a, s'))
    (h2 : 2 ≤ s.count) : a < s.totalAmount := by
  obtain ⟨hc, ht, hg, hca, hs'⟩ := RedPacket.grab_ok_cases h
  rcases RedPacket.computeAmount_ok_cases hca with ⟨h1, _⟩ | ⟨_, _, h1⟩ | ⟨_, _, hr, h1⟩ <;>
    simp only [RedPacket.preTransferState_count,
      RedPacket.preTransferState_totalAmount] at *
  · omega
  · rw [h1]; exact Nat.div_lt_self (Nat.pos_of_ne_zero ht) (by omega)
  · have hd := RedPacket.rand_draw_lt (r := rand) h2 hr
    rw [h1]; split
    · omega
    · exact hd

/-- A successful claim taken with exactly one share remaining pays the whole
pool (`count == 1` branch of the source). -/
theorem RedPacket.grab_ok_last {sender rand a : Nat} {s s' : RPState}
    (h : RedPacket.grabRedPacket sender rand s = .ok (a, s'))
    (h1 : s.count = 1) : a = s.totalAmount := by
  obtain ⟨hc, ht, hg, hca, hs'⟩ := RedPacket.grab_ok_cases h
  rcases RedPacket.computeAmount_ok_cases hca with ⟨_, ha⟩ | ⟨hne, _, _⟩ | ⟨hne, _, _, _⟩ <;>
    simp only [RedPacket.preTransferState_count,
      RedPacket.preTransferState_totalAmount] at *
  · exact ha
  · exact absurd h1 hne
  · exact absurd h1 hne

/-- Combined inductive invariant of every reachable state: the mode is the
creation mode, shares never exceed the initial count, the claimed set's size
is exactly the number of consumed shares, the pool never exceeds the funding,
a share-exhausted pool is fully drained, and (for positive funding) the pool
stays positive while shares remain. -/
theorem RedPacket.reach_inv {N₀ : Nat} {eq : Bool} {T₀ : Nat} {s : RPState}
    (h : RPReachable N₀ eq T₀ s) :
    s.isEqual = eq ∧ s.count ≤ N₀ ∧ s.grabbed.card = N₀ - s.count ∧
    s.totalAmount ≤ T₀ ∧ (s.count = 0 → s.totalAmount = 0) ∧
    (0 < T₀ → 0 < s.count → 0 < s.totalAmount) := by
  induction h with
  | create s hs =>
      unfold RedPacket.construct at hs
      split at hs
      · exact absurd hs (by simp)
      · injection hs with h1
        rw [← h1]
        refine ⟨rfl, le_rfl, by simp, le_rfl, ?_, fun ht _ => ht⟩
        intro h0; exact absurd h0 (by assumption)
  | step s sender rand a s' hr hstep ih =>
      obtain ⟨heq, hcN, hcard, htT, hdrain, hpos⟩ := ih
      obtain ⟨ht', hc', heq', hg', hfresh, haT, hc1, ht1⟩ :=
        RedPacket.grab_ok_state hstep
      refine ⟨heq' ▸ heq, by omega, ?_, by omega, ?_, ?_⟩
      · rw [hg', hc', Finset.card_insert_of_not_mem hfresh]; omega
      · intro h0
        rw [hc'] at h0
        have hlast : a = s.totalAmount := RedPacket.grab_ok_last hstep (by omega)
        rw [ht', hlast]; omega
      · intro hT0 hcpos
        rw [hc'] at hcpos
        have hlt : a < s.totalAmount := RedPacket.grab_ok_amount_lt hstep (by omega)
        rw [ht']; omega

/-- The only error `computeAmount` itself can produce is the
modulus-by-zero `Panic`. -/
theorem RedPacket.computeAmount_error {rand : Nat} {s : RPState} {e : GrabError}
    (h : RedPacket.computeAmount rand s = .error e) : e = .Panic := by
  unfold RedPacket.computeAmount at h
  dsimp only [] at h
  split at h
  · exact absurd h (by simp)
  split at h
  · exact absurd h (by simp)
  split at h
  · injection h with h1; exact h1.symm
  · exact absurd h (by simp)

/-! ## Claim C1 -/

/-- C1: the specification requires that when `range = 0` (i.e. `avg = 0`, so
`min = max`) a Random-mode claim pay out `min` without computing any modulus.
The code instead evaluates `rand % range` unconditionally: from the creatable
pool with funding 1 and 2 shares in Random mode, every claim attempt reverts
with the Solidity modulus-by-zero `Panic(0x12)` instead of paying `min = 0`. -/
theorem C1_range_zero_panics :
    RedPacket.construct 2 false 1 = .ok tinyRandomPool ∧
    ∀ sender rand : Nat,
      RedPacket.grabRedPacket sender rand tinyRandomPool =
        .error GrabError.Panic := by
  refine ⟨rfl, fun sender rand => ?_⟩
  simp [tinyRandomPool, RedPacket.grabRedPacket, RedPacket.computeAmount,
    RedPacket.preTransferState]

/-! ## Claim C3 -/

/-- C3: in every successful claim the claimant is fresh, gets marked, and —
because the `isGrabbed[msg.sender] = 1` write is committed before the transfer
is initiated — a reentrant claim by the same identity against the state the
transfer executes under (`preTransferState`) is rejected with `AlreadyClaimed`
for every entropy value, so the same identity is never paid twice. -/
theorem C3_reentrancy_guard {sender rand a : Nat} {s s' : RPState}
    (h : RedPacket.grabRedPacket sender rand s = .ok (a, s')) :
    sender ∉ s.grabbed ∧ sender ∈ s'.grabbed ∧
    ∀ rand2 : Nat,
      RedPacket.grabRedPacket sender rand2 (RedPacket.preTransferState sender s) =
        .error GrabError.AlreadyClaimed := by
  obtain ⟨hc, ht, hg, hca, hs'⟩ := RedPacket.grab_ok_cases h
  refine ⟨hg, by rw [hs']; exact Finset.mem_insert_self _ _, fun rand2 => ?_⟩
  unfold RedPacket.grabRedPacket
  rw [RedPacket.preTransferState_count, RedPacket.preTransferState_totalAmount,
    if_neg hc, if_neg ht,
    if_pos (RedPacket.preTransferState_grabbed sender s ▸ Finset.mem_insert_self sender _)]

/-- Witness for C3 at a concrete successful claim. -/
theorem C3_reentrancy_guard_witness :
    (5 : Nat) ∉ oneSharePool.grabbed ∧
    (5 : Nat) ∈ oneSharePoolDrained.grabbed ∧
    ∀ rand2 : Nat,
      RedPacket.grabRedPacket 5 rand2 (RedPacket.preTransferState 5 oneSharePool) =
        .error GrabError.AlreadyClaimed :=
  @C3_reentrancy_guard 5 0 100 oneSharePool oneSharePoolDrained rfl

/-! ## Claim C4 -/

/-- C4 counterexample: the constructor never inspects `msg.value`; deploying
with share count 1 and zero funding succeeds and yields `fundingTotal = 0`,
refuting "a successfully created pool satisfies `fundingTotal > 0`". -/
theorem C4_counterexample :
    RedPacket.construct 1 true 0 = .ok zeroFundPool ∧
    zeroFundPool.totalAmount = 0 :=
  ⟨rfl, rfl⟩

/-- C4 (amended): creation fails with `InvalidConfig` iff the requested share
count is 0; a successfully created pool has `shareCountInitial = shareCount > 0`
and `fundingTotal` equal to the supplied value — which is *not* validated and
may be 0 — the mode as requested and an empty claimed set. -/
theorem C4_create_spec (n : Nat) (eqm : Bool) (v : Nat) :
    (RedPacket.construct n eqm v = .error CreateError.InvalidConfig ↔ n = 0) ∧
    (∀ s : RPState, RedPacket.construct n eqm v = .ok s →
      0 < s.count ∧ s.count = n ∧ s.totalAmount = v ∧ s.isEqual = eqm ∧
      s.grabbed = ∅) := by
  constructor
  · unfold RedPacket.construct
    constructor
    · intro h
      by_contra h0
      rw [if_neg h0] at h
      exact absurd h (by simp)
    · intro h; rw [if_pos h]
  · intro s h
    unfold RedPacket.construct at h
    split at h
    · exact absurd h (by simp)
    · injection h with h1
      rw [← h1]
      exact ⟨Nat.pos_of_ne_zero (by assumption), rfl, rfl, rfl, rfl⟩

/-- Witness for C4 at a concrete creation (share count 1, zero funding). -/
theorem C4_create_spec_witness :
    0 < zeroFundPool.count ∧ zeroFundPool.count = 1 ∧
    zeroFundPool.totalAmount = 0 ∧ zeroFundPool.isEqual = true ∧
    zeroFundPool.grabbed = ∅ :=
  (C4_create_spec 1 true 0).2 zeroFundPool rfl

/-! ## Claim C5 -/

/-- C5 counterexample: the guards run in the order shares → funds → claimed, so
after the single share of a one-share pool is claimed by identity 5, a second
attempt by the same identity fails with `PoolExhausted` — not `AlreadyClaimed`
as the claim requires "regardless of the remaining pool state". -/
theorem C5_counterexample :
    RedPacket.grabRedPacket 5 0 oneSharePool = .ok (100, oneSharePoolDrained) ∧
    RedPacket.grabRedPacket 5 0 oneSharePoolDrained =
      .error GrabError.PoolExhausted ∧
    GrabError.PoolExhausted ≠ GrabError.AlreadyClaimed :=
  ⟨rfl, rfl, by simp⟩

/-- C5 (amended): an identity already marked claimed can never claim again —
every further attempt fails, and it fails with `AlreadyClaimed` precisely when
the earlier pool guards pass (`sharesRemaining ≠ 0` and `remainingTotal ≠ 0`);
and every failed claim attempt, whatever its error, leaves the whole state
(remainingTotal, sharesRemaining and the claimed set) unchanged. -/
theorem C5_second_claim_fails (sender rand : Nat) (s : RPState) :
    (sender ∈ s.grabbed →
      (∀ r : Nat × RPState, RedPacket.grabRedPacket sender rand s ≠ .ok r) ∧
      (s.count ≠ 0 → s.totalAmount ≠ 0 →
        RedPacket.grabRedPacket sender rand s = .error GrabError.AlreadyClaimed)) ∧
    (∀ e : GrabError, RedPacket.grabRedPacket sender rand s = .error e →
      RedPacket.attempt sender rand s = s) := by
  constructor
  · intro hmem
    constructor
    · intro r hok
      exact absurd hmem (@RedPacket.grab_ok_cases sender rand r.1 s r.2 (by rw [hok])).2.2.1
    · intro hc ht
      unfold RedPacket.grabRedPacket
      rw [if_neg hc, if_neg ht, if_pos hmem]
  · intro e he
    unfold RedPacket.attempt
    rw [he]

/-- Witness for C5 at a concrete already-claimed identity with a live pool. -/
theorem C5_second_claim_fails_witness :
    RedPacket.grabRedPacket 5 0 claimedLivePool =
      .error GrabError.AlreadyClaimed ∧
    RedPacket.attempt 5 0 claimedLivePool = claimedLivePool := by
  have h := C5_second_claim_fails 5 0 claimedLivePool
  have hmem : (5 : Nat) ∈ claimedLivePool.grabbed := by
    simp [claimedLivePool]
  have h1 := (h.1 hmem).2 (by simp [claimedLivePool]) (by simp [claimedLivePool])
  exact ⟨h1, h.2 GrabError.AlreadyClaimed h1⟩

/-! ## Claim C6 -/

/-- C6: in both modes, the successful claim taken with exactly one share left
pays the full remaining pool and leaves `remainingTotal = 0` and
`sharesRemaining = 0`; and in every reachable state, `sharesRemaining = 0`
implies `remainingTotal = 0`. -/
theorem C6_terminal_drain :
    (∀ (sender rand a : Nat) (s s' : RPState), s.count = 1 →
      RedPacket.grabRedPacket sender rand s = .ok (a, s') →
      a = s.totalAmount ∧ s'.totalAmount = 0 ∧ s'.count = 0) ∧
    (∀ (N₀ : Nat) (eq : Bool) (T₀ : Nat) (s : RPState),
      RPReachable N₀ eq T₀ s → s.count = 0 → s.totalAmount = 0) := by
  constructor
  · intro sender rand a s s' h1 h
    have ha := RedPacket.grab_ok_last h h1
    obtain ⟨ht', hc', -, -, -, -, -, -⟩ := RedPacket.grab_ok_state h
    exact ⟨ha, by rw [ht', ha]; omega, by omega⟩
  · intro N₀ eq T₀ s h h0
    exact (RedPacket.reach_inv h).2.2.2.2.1 h0

/-- Witness for C6: the one-share pool's claim pays everything, and the drained
state — reachable from `construct 1 false 100` — has both counters at zero. -/
theorem C6_terminal_drain_witness :
    (100 = oneSharePool.totalAmount ∧ oneSharePoolDrained.totalAmount = 0 ∧
      oneSharePoolDrained.count = 0) ∧
    oneSharePoolDrained.totalAmount = 0 :=
  ⟨C6_terminal_drain.1 5 0 100 oneSharePool oneSharePoolDrained rfl rfl,
   C6_terminal_drain.2 1 false 100 oneSharePoolDrained
     (RPReachable.step oneSharePool 5 0 100 oneSharePoolDrained
       (RPReachable.create oneSharePool rfl) rfl) rfl⟩

/-! ## Claim C7 -/

/-- C7: Equal-mode payouts are fully determined by the pool state: a successful
claim with at least two shares remaining pays exactly
`⌊remainingTotal / sharesRemaining⌋`, and the final claim (one share remaining)
pays the exact remainder `remainingTotal`. -/
theorem C7_equal_determinism {sender rand a : Nat} {s s' : RPState}
    (heq : s.isEqual = true)
    (h : RedPacket.grabRedPacket sender rand s = .ok (a, s')) :
    (2 ≤ s.count → a = s.totalAmount / s.count) ∧
    (s.count = 1 → a = s.totalAmount) := by
  obtain ⟨hc, ht, hg, hca, -⟩ := RedPacket.grab_ok_cases h
  refine ⟨?_, fun h1 => RedPacket.grab_ok_last h h1⟩
  intro h2
  rcases RedPacket.computeAmount_ok_cases hca with ⟨h1, -⟩ | ⟨-, -, h1⟩ | ⟨-, hE, -⟩ <;>
    simp only [RedPacket.preTransferState_count, RedPacket.preTransferState_totalAmount,
      RedPacket.preTransferState_isEqual] at *
  · omega
  · exact h1
  · rw [heq] at hE; cases hE

/-- Witness for C7 at a concrete Equal-mode claim: 100 funding, 10 shares. -/
theorem C7_equal_determinism_witness :
    (2 ≤ (10 : Nat) → (10 : Nat) = 100 / 10) ∧ ((10 : Nat) = 1 → (10 : Nat) = 100) :=
  @C7_equal_determinism 0 7 10
    { totalAmount := 100, count := 10, isEqual := true, grabbed := ∅ }
    { totalAmount := 90, count := 9, isEqual := true, grabbed := {0} }
    rfl rfl

/-! ## Claim C8 -/

/-- C8: Random-mode bound: every successful claim taken with at least two
shares remaining pays an amount `a` with `min ≤ a ≤ remainingTotal` and
`a ≤ 2·⌊remainingTotal / sharesRemaining⌋`, where
`min = ⌊⌊remainingTotal / sharesRemaining⌋ / 100⌋`, for every entropy value. -/
theorem C8_random_bound {sender rand a : Nat} {s s' : RPState}
    (heq : s.isEqual = false) (h2 : 2 ≤ s.count)
    (h : RedPacket.grabRedPacket sender rand s = .ok (a, s')) :
    s.totalAmount / s.count / 100 ≤ a ∧ a ≤ s.totalAmount ∧
    a ≤ 2 * (s.totalAmount / s.count) := by
  obtain ⟨hc, ht, hg, hca, -⟩ := RedPacket.grab_ok_cases h
  rcases RedPacket.computeAmount_ok_cases hca with ⟨h1, -⟩ | ⟨-, hE, -⟩ | ⟨-, -, hr, h1⟩ <;>
    simp only [RedPacket.preTransferState_count, RedPacket.preTransferState_totalAmount,
      RedPacket.preTransferState_isEqual] at *
  · omega
  · rw [heq] at hE; cases hE
  · have hd := RedPacket.rand_draw_lt (r := rand) h2 hr
    have hmod : rand % (s.totalAmount / s.count * 2 - s.totalAmount / s.count / 100) <
        s.totalAmount / s.count * 2 - s.totalAmount / s.count / 100 :=
      Nat.mod_lt _ (Nat.pos_of_ne_zero hr)
    have hq : s.totalAmount / s.count / 100 ≤ s.totalAmount / s.count :=
      Nat.div_le_self _ _
    rw [h1, if_neg (by omega)]
    omega

/-- Witness for C8 at a concrete Random-mode claim: 300 funding, 3 shares,
entropy 0, paying `min = ⌊⌊300/3⌋/100⌋ = 1`. -/
theorem C8_random_bound_witness :
    (300 : Nat) / 3 / 100 ≤ 1 ∧ (1 : Nat) ≤ 300 ∧ (1 : Nat) ≤ 2 * (300 / 3) :=
  @C8_random_bound 0 0 1
    { totalAmount := 300, count := 3, isEqual := false, grabbed := ∅ }
    { totalAmount := 299, count := 2, isEqual := false, grabbed := {0} }
    rfl (by decide) rfl

/-! ## Claim C9 -/

/-- C9: ledger invariants: in every reachable state the claimed set's size is
exactly `shareCountInitial - sharesRemaining` (and shares never exceed the
initial count); and every successful claim decrements `sharesRemaining` by
exactly one, never increases `remainingTotal`, pays only an identity not yet
marked, and only inserts that identity into the claimed set — identities are
never unmarked. -/
theorem C9_ledger_invariants :
    (∀ (N₀ : Nat) (eq : Bool) (T₀ : Nat) (s : RPState), RPReachable N₀ eq T₀ s →
      s.grabbed.card = N₀ - s.count ∧ s.count ≤ N₀) ∧
    (∀ (sender rand a : Nat) (s s' : RPState),
      RedPacket.grabRedPacket sender rand s = .ok (a, s') →
      s'.count + 1 = s.count ∧ s'.totalAmount ≤ s.totalAmount ∧
      sender ∉ s.grabbed ∧ s'.grabbed = insert sender s.grabbed ∧
      s.grabbed ⊆ s'.grabbed) := by
  constructor
  · intro N₀ eq T₀ s h
    exact ⟨(RedPacket.reach_inv h).2.2.1, (RedPacket.reach_inv h).2.1⟩
  · intro sender rand a s s' h
    obtain ⟨ht', hc', -, hg', hfresh, haT, hc1, -⟩ := RedPacket.grab_ok_state h
    refine ⟨by omega, by omega, hfresh, hg', ?_⟩
    rw [hg']
    exact Finset.subset_insert sender s.grabbed

/-- Witness for C9: the reachable drained one-share pool has one claimed
identity for one consumed share; and the concrete claim on `oneSharePool`
decrements the counters and inserts identity 5. -/
theorem C9_ledger_invariants_witness :
    (oneSharePoolDrained.grabbed.card = 1 - oneSharePoolDrained.count ∧
      oneSharePoolDrained.count ≤ 1) ∧
    (oneSharePoolDrained.count + 1 = oneSharePool.count ∧
      oneSharePoolDrained.totalAmount ≤ oneSharePool.totalAmount ∧
      (5 : Nat) ∉ oneSharePool.grabbed ∧
      oneSharePoolDrained.grabbed = insert 5 oneSharePool.grabbed ∧
      oneSharePool.grabbed ⊆ oneSharePoolDrained.grabbed) :=
  ⟨C9_ledger_invariants.1 1 false 100 oneSharePoolDrained
     (RPReachable.step oneSharePool 5 0 100 oneSharePoolDrained
       (RPReachable.create oneSharePool rfl) rfl),
   C9_ledger_invariants.2 5 0 100 oneSharePool oneSharePoolDrained rfl⟩

/-! ## Claim C10 -/

/-- C10: for a pool created with positive funding, every reachable state with
shares remaining has funds remaining, so the `PoolEmpty` guard can never fire;
and every successful claim taken with at least two shares remaining pays
strictly less than the pool — in Random mode the committed amount is exactly
the unclamped draw `rand % range + min`, i.e. the clamp to `remainingTotal`
never alters it. -/
theorem C10_poolempty_clamp_unreachable {N₀ : Nat} {eq : Bool} {T₀ : Nat}
    {s : RPState} (hreach : RPReachable N₀ eq T₀ s) (hT : 0 < T₀) :
    (0 < s.count → 0 < s.totalAmount) ∧
    (∀ sender rand : Nat,
      RedPacket.grabRedPacket sender rand s ≠ .error GrabError.PoolEmpty) ∧
    (∀ (sender rand a : Nat) (s' : RPState), 2 ≤ s.count →
      RedPacket.grabRedPacket sender rand s = .ok (a, s') →
      a < s.totalAmount ∧
      (s.isEqual = false →
        a = rand % (s.totalAmount / s.count * 2 - s.totalAmount / s.count / 100)
          + s.totalAmount / s.count / 100)) := by
  have hpos := (RedPacket.reach_inv hreach).2.2.2.2.2 hT
  refine ⟨hpos, ?_, ?_⟩
  · intro sender rand hPE
    unfold RedPacket.grabRedPacket at hPE
    split at hPE
    · exact absurd hPE (by simp)
    · have ht0 : 0 < s.totalAmount := hpos (by omega)
      rw [if_neg (by omega)] at hPE
      split at hPE
      · exact absurd hPE (by simp)
      · dsimp only [] at hPE
        split at hPE
        · rename_i e he
          injection hPE with h1
          rw [RedPacket.computeAmount_error he] at h1
          cases h1
        · exact absurd hPE (by simp)
  · intro sender rand a s' h2 h
    refine ⟨RedPacket.grab_ok_amount_lt h h2, ?_⟩
    intro hmode
    obtain ⟨hc, ht, hg, hca, -⟩ := RedPacket.grab_ok_cases h
    rcases RedPacket.computeAmount_ok_cases hca with ⟨h1, -⟩ | ⟨-, hE, -⟩ | ⟨-, -, hr, h1⟩ <;>
      simp only [RedPacket.preTransferState_count, RedPacket.preTransferState_totalAmount,
        RedPacket.preTransferState_isEqual] at *
    · omega
    · rw [hmode] at hE; cases hE
    · have hd := RedPacket.rand_draw_lt (r := rand) h2 hr
      rw [h1, if_neg (by omega)]

/-- Witness for C10 at the created state of a 3-share Random pool funded
with 300. -/
theorem C10_poolempty_clamp_unreachable_witness :
    (0 < (3 : Nat) →
      0 < (300 : Nat)) ∧
    (∀ sender rand : Nat,
      RedPacket.grabRedPacket sender rand
        { totalAmount := 300, count := 3, isEqual := false, grabbed := ∅ } ≠
        .error GrabError.PoolEmpty) ∧
    (∀ (sender rand a : Nat) (s' : RPState), 2 ≤ (3 : Nat) →
      RedPacket.grabRedPacket sender rand
        { totalAmount := 300, count := 3, isEqual := false, grabbed := ∅ } =
        .ok (a, s') →
      a < 300 ∧
      (false = false → a = rand % (300 / 3 * 2 - 300 / 3 / 100) + 300 / 3 / 100)) :=
  @C10_poolempty_clamp_unreachable 3 false 300
    { totalAmount := 300, count := 3, isEqual := false, grabbed := ∅ }
    (RPReachable.create
      { totalAmount := 300, count := 3, isEqual := false, grabbed := ∅ } rfl)
    (by omega)

/-! ## Claim C2 -/

/-- C2 counterexample: the Random-mode pool with positive funding 3 and 4
shares is validly creatable, yet no claim at all can ever succeed from its
initial state (`avg = 0`, so every attempt reverts on `rand % 0`) — hence 4
successful claims summing to the funding are impossible. -/
theorem C2_counterexample :
    RedPacket.construct 4 false 3 = .ok smallRandomPool ∧
    ∀ (sender rand : Nat) (r : Nat × RPState),
      RedPacket.grabRedPacket sender rand smallRandomPool ≠ .ok r := by
  refine ⟨rfl, fun sender rand r hok => ?_⟩
  revert hok
  simp [smallRandomPool, RedPacket.grabRedPacket, RedPacket.computeAmount,
    RedPacket.preTransferState]

/-- With at least two shares, positive funds, and (in Random mode) funds at
least the share count, `computeAmount` succeeds for every entropy value, pays
strictly less than the pool, and leaves funds at least the decremented share
count. -/
theorem RedPacket.computeAmount_step {rand : Nat} {s : RPState}
    (h2 : 2 ≤ s.count) (ht : 0 < s.totalAmount)
    (hmode : s.isEqual = false → s.count ≤ s.totalAmount) :
    ∃ a, RedPacket.computeAmount rand s = .ok a ∧ a < s.totalAmount ∧
      (s.isEqual = false → s.count - 1 ≤ s.totalAmount - a) := by
  unfold RedPacket.computeAmount
  rw [if_neg (by omega)]
  cases hE : s.isEqual with
  | true =>
      rw [if_pos rfl]
      exact ⟨_, rfl, Nat.div_lt_self ht (by omega), fun hf => by simp at hf⟩
  | false =>
      rw [if_neg (by simp)]
      dsimp only []
      have hcT : s.count ≤ s.totalAmount := hmode hE
      have hq1 : 1 ≤ s.totalAmount / s.count :=
        (Nat.one_le_div_iff (by omega)).mpr hcT
      have hq100 : s.totalAmount / s.count / 100 ≤ s.totalAmount / s.count :=
        Nat.div_le_self _ _
      have hrange : s.totalAmount / s.count * 2 - s.totalAmount / s.count / 100 ≠ 0 := by
        omega
      rw [if_neg hrange]
      have hmod : rand % (s.totalAmount / s.count * 2 - s.totalAmount / s.count / 100) <
          s.totalAmount / s.count * 2 - s.totalAmount / s.count / 100 :=
        Nat.mod_lt _ (Nat.pos_of_ne_zero hrange)
      have hqN : s.count * (s.totalAmount / s.count) + s.totalAmount % s.count =
          s.totalAmount := Nat.div_add_mod _ _
      have key : s.count + 2 * (s.totalAmount / s.count) ≤
          s.count * (s.totalAmount / s.count) + 2 := by
        obtain ⟨n, hn⟩ : ∃ n, s.count = n + 2 := ⟨s.count - 2, by omega⟩
        obtain ⟨q', hq'⟩ : ∃ q', s.totalAmount / s.count = q' + 1 :=
          ⟨s.totalAmount / s.count - 1, by omega⟩
        rw [hq', hn]
        have hexp : (n + 2) * (q' + 1) = n * q' + n + 2 * q' + 2 := by ring
        omega
      refine ⟨_, rfl, ?_, fun _ => ?_⟩
      · rw [if_neg (by omega)]; omega
      · rw [if_neg (by omega)]; omega

/-- Drain lemma: from any state with `k ≥ 1` shares, positive funds, and (in
Random mode) funds at least the share count, in which every identity `≥ i` is
still fresh, the `k` claims by identities `i, …, i+k-1` all succeed — for every
entropy assignment — and their payouts sum to exactly the pool, leaving it
fully drained. -/
theorem RedPacket.drain_aux (rand : Nat → Nat) :
    ∀ (k i : Nat) (s : RPState), s.count = k → 0 < k → 0 < s.totalAmount →
    (s.isEqual = false → s.count ≤ s.totalAmount) →
    (∀ j, i ≤ j → j ∉ s.grabbed) →
    ∃ (as : List Nat) (sf : RPState),
      RedPacket.runClaims rand i k s = some (as, sf) ∧
      as.length = k ∧ as.sum = s.totalAmount ∧
      sf.totalAmount = 0 ∧ sf.count = 0 := by
  intro k
  induction k with
  | zero => intro i s _ hk; omega
  | succ k ih =>
    intro i s hcount hk ht hmode hfresh
    rcases Nat.eq_zero_or_pos k with rfl | hkpos
    · -- final share: the claim by identity `i` drains the pool
      have hca : RedPacket.computeAmount (rand i)
          (RedPacket.preTransferState i s) = .ok s.totalAmount := by
        unfold RedPacket.computeAmount
        rw [if_pos (by rw [RedPacket.preTransferState_count, hcount])]
        rfl
      have hgrab := @RedPacket.grab_ok_intro i (rand i) s.totalAmount s
        (by omega) (by omega) (hfresh i le_rfl) hca
      refine ⟨[s.totalAmount],
        { totalAmount := s.totalAmount - s.totalAmount, count := s.count - 1,
          isEqual := s.isEqual, grabbed := insert i s.grabbed },
        ?_, rfl, by simp, by simp, by show s.count - 1 = 0; omega⟩
      simp only [RedPacket.runClaims]
      rw [hgrab]
    · -- at least two shares: identity `i` claims, then recurse
      obtain ⟨a, hca, hlt, hnext⟩ :=
        @RedPacket.computeAmount_step (rand i) (RedPacket.preTransferState i s)
        (by rw [RedPacket.preTransferState_count]; omega)
        (by rw [RedPacket.preTransferState_totalAmount]; omega)
        (by rw [RedPacket.preTransferState_isEqual,
              RedPacket.preTransferState_count,
              RedPacket.preTransferState_totalAmount]; exact hmode)
      rw [RedPacket.preTransferState_totalAmount] at hlt
      rw [RedPacket.preTransferState_isEqual, RedPacket.preTransferState_count,
        RedPacket.preTransferState_totalAmount] at hnext
      have hgrab := @RedPacket.grab_ok_intro i (rand i) a s
        (by omega) (by omega) (hfresh i le_rfl) hca
      obtain ⟨as', sf, hrec, hlen, hsum, hsf1, hsf2⟩ := ih (i + 1)
        { totalAmount := s.totalAmount - a, count := s.count - 1,
          isEqual := s.isEqual, grabbed := insert i s.grabbed }
        (by show s.count - 1 = k; omega) hkpos
        (by show 0 < s.totalAmount - a; omega)
        (fun hf => hnext hf)
        (by intro j hj
            simp only [Finset.mem_insert, not_or]
            exact ⟨by omega, hfresh j (by omega)⟩)
      refine ⟨a :: as', sf, ?_, by simp [hlen], by simp [hsum]; omega,
        hsf1, hsf2⟩
      simp only [RedPacket.runClaims]
      rw [hgrab]
      dsimp only []
      rw [hrec]

/-- C2 (amended): for every successful creation with funding `T₀ > 0` and `N`
shares, in Equal mode always — and in Random mode provided `T₀ ≥ N` — the `N`
claims by `N` distinct identities all succeed for every entropy assignment,
and their committed payouts sum exactly to `T₀`, leaving the pool drained.
(When `T₀ < N` in Random mode, no claim can succeed at all; see the
counterexample.) -/
theorem C2_conservation (N : Nat) (eqm : Bool) (T₀ : Nat) (rand : Nat → Nat)
    (hN : 0 < N) (hT : 0 < T₀) (hmode : eqm = false → N ≤ T₀) {s₀ : RPState}
    (hs : RedPacket.construct N eqm T₀ = .ok s₀) :
    ∃ (as : List Nat) (sf : RPState),
      RedPacket.runClaims rand 0 N s₀ = some (as, sf) ∧
      as.length = N ∧ as.sum = T₀ ∧ sf.totalAmount = 0 ∧ sf.count = 0 := by
  unfold RedPacket.construct at hs
  rw [if_neg (by omega)] at hs
  injection hs with h1
  subst h1
  exact RedPacket.drain_aux rand N 0 _ rfl hN hT hmode (by simp)

/-- Witness for C2 at a concrete Random pool: funding 10, 2 shares, all-zero
entropy; the two claims pay 0 and 10. -/
theorem C2_conservation_witness :
    ∃ (as : List Nat) (sf : RPState),
      RedPacket.runClaims (fun _ => 0) 0 2
        { totalAmount := 10, count := 2, isEqual := false, grabbed := ∅ } =
        some (as, sf) ∧
      as.length = 2 ∧ as.sum = 10 ∧ sf.totalAmount = 0 ∧ sf.count = 0 :=
  C2_conservation 2 false 10 (fun _ => 0) (by omega) (by omega)
    (fun _ => by omega) rfl
